import Mathlib

/-!
Shallow embedding of the order-book core of `src/main.rs`
(struct `Orderbook` and its methods `evaluate`, `handle_snapshot`,
`handle_update`, `render`).

Modelling conventions:
* `f64` prices and quantities become `ℚ`.  The code orders and compares
  entries via `f64::total_cmp` on `price`, which on the (finite, non-NaN)
  values of interest coincides with the numeric order, so the rational
  order is the faithful counterpart.
* `BTreeSet<BidEntry>` / `BTreeSet<AskEntry>` (ordered ascending by
  `price`, equality decided solely by `price`) become lists of `Entry`
  kept strictly ascending by price.  `BTreeSet::insert` does not
  overwrite an element that compares equal ("If the set did contain an
  equal value, ... the entry is not updated"), and `btInsert` mirrors
  exactly that.  `BTreeSet::retain` becomes `List.filter`.
* `message.data.unwrap()` panics when `data` is `None`.  The handlers
  therefore return `Except Orderbook Orderbook`: `.ok b` is normal
  completion with final state `b`, `.error b` is a panic with the
  in-memory state `b` at the moment of the panic.
-/

namespace OrderbookSpec

/-- One `(price, qty)` pair, as in struct `Entry` (also the payload of
`BidEntry` / `AskEntry`, which carry the same two fields). -/
structure Entry where
  price : ℚ
  qty : ℚ
deriving DecidableEq

/-- Struct `OrderbookEntry`: per-symbol lists of bid and ask pairs,
each optional. -/
structure OrderbookEntry where
  symbol : Option String
  bids : Option (List Entry)
  asks : Option (List Entry)
deriving DecidableEq

/-- Struct `OrderbookMessage`: the decoded feed record. -/
structure OrderbookMessage where
  data : Option (List OrderbookEntry)
  type_name : Option String
  channel : Option String
deriving DecidableEq

/-- Struct `Orderbook`: the two side ledgers.  Each list models a
`BTreeSet` iterated in ascending price order. -/
structure Orderbook where
  bids_heap : List Entry
  asks_heap : List Entry
deriving DecidableEq

/-- Constant `SIGMA`: `const SIGMA: f64 = 0.00000001;` (the rational
`1 / 100000000`, written with `mkRat` so that it computes). -/
def SIGMA : ℚ := mkRat 1 100000000

/-- Constructor `Orderbook::new()`. -/
def Orderbook.new : Orderbook := ⟨[], []⟩

/-- Model of `BTreeSet::insert` on a set ordered by `price` (via `total_cmp`),
with equality decided by `price` alone: walk the ascending list; insert
before the first strictly larger price; if an entry with equal price is
already present the set is left unchanged (the stored entry is NOT
updated). -/
def btInsert (e : Entry) : List Entry → List Entry
  | [] => [e]
  | x :: xs =>
    if e.price < x.price then e :: x :: xs
    else if e.price = x.price then x :: xs
    else x :: btInsert e xs

/-- Body of the per-bid closure in `handle_update`:
`if bid.qty < SIGMA { bids_heap.retain(|entry| entry.price - bid.price > SIGMA) }
 else { bids_heap.insert(BidEntry { price, qty }) }`. -/
def applyBid (heap : List Entry) (bid : Entry) : List Entry :=
  if bid.qty < SIGMA then
    heap.filter (fun entry => entry.price - bid.price > SIGMA)
  else
    btInsert ⟨bid.price, bid.qty⟩ heap

/-- Body of the per-ask closure in `handle_update` (same shape as the
bid branch, acting on `asks_heap`). -/
def applyAsk (heap : List Entry) (ask : Entry) : List Entry :=
  if ask.qty < SIGMA then
    heap.filter (fun entry => entry.price - ask.price > SIGMA)
  else
    btInsert ⟨ask.price, ask.qty⟩ heap

/-- One iteration of `data.unwrap().iter().for_each(|entry| ...)`:
the bid list (when present) is folded into `bids_heap`, then the ask
list (when present) into `asks_heap`. -/
def applyEntry (b : Orderbook) (entry : OrderbookEntry) : Orderbook :=
  let b1 :=
    match entry.bids with
    | some bids => { b with bids_heap := bids.foldl applyBid b.bids_heap }
    | none => b
  match entry.asks with
  | some asks => { b1 with asks_heap := asks.foldl applyAsk b1.asks_heap }
  | none => b1

/-- The pure part of `Orderbook::handle_update`, applied once the
`data` payload has been unwrapped. -/
def applyUpdateData (b : Orderbook) (d : List OrderbookEntry) : Orderbook :=
  d.foldl applyEntry b

/-- Method `Orderbook::handle_update`: `message.data.unwrap()` panics when the
payload is absent (`.error` with the state unchanged at panic time);
otherwise every entry is applied in order. -/
def handle_update (b : Orderbook) (m : OrderbookMessage) :
    Except Orderbook Orderbook :=
  match m.data with
  | none => .error b
  | some d => .ok (applyUpdateData b d)

/-- Method `Orderbook::handle_snapshot`: clear both heaps, then run
`handle_update` on the cleared book. -/
def handle_snapshot (b : Orderbook) (m : OrderbookMessage) :
    Except Orderbook Orderbook :=
  handle_update { b with bids_heap := [], asks_heap := [] } m

/-- Method `Orderbook::evaluate`: dispatch on the `type` field; absent or
unrecognized classification leaves the book untouched. -/
def evaluate (b : Orderbook) (m : OrderbookMessage) :
    Except Orderbook Orderbook :=
  match m.type_name with
  | some type_name =>
    if type_name = "snapshot" then handle_snapshot b m
    else if type_name = "update" then handle_update b m
    else .ok b
  | none => .ok b

/-- The four numbers printed by `Orderbook::render`:
`BID {bid.price} {bid.qty} <-> ASK {bid.price} {ask.qty}` (the bid's
price is printed in both price slots). -/
structure Quote where
  bid_price : ℚ
  bid_qty : ℚ
  ask_price : ℚ
  ask_qty : ℚ
deriving DecidableEq

/-- Method `Orderbook::render`: `bids_heap.iter().next()` is the FIRST element
in ascending order (the lowest bid price); `asks_heap.iter().next_back()`
is the LAST (the highest ask price).  Output is produced only when both
are present; otherwise nothing is printed (`none`). -/
def render (b : Orderbook) : Option Quote :=
  match b.bids_heap.head?, b.asks_heap.getLast? with
  | some bid, some ask => some ⟨bid.price, bid.qty, bid.price, ask.qty⟩
  | _, _ => none

/-- The in-memory state after one record: normal result on `.ok`, the
state at the moment of the panic on `.error`. -/
def evaluateState (b : Orderbook) (m : OrderbookMessage) : Orderbook :=
  match evaluate b m with
  | .ok b1 => b1
  | .error b1 => b1

/-- The book state after a whole feed of records, starting from
`Orderbook::new()`. -/
def processAll (ms : List OrderbookMessage) : Orderbook :=
  ms.foldl evaluateState Orderbook.new

/-- Strict ascending order by price: the invariant of a modelled
`BTreeSet` side ledger. -/
def AscendingPrices (l : List Entry) : Prop :=
  l.Pairwise (fun a c => a.price < c.price)

theorem mem_btInsert (e y : Entry) (l : List Entry) (h : y ∈ btInsert e l) :
    y = e ∨ y ∈ l := by
  induction l with
  | nil =>
    simp only [btInsert, List.mem_singleton] at h
    exact Or.inl h
  | cons x xs ih =>
    simp only [btInsert] at h
    split at h
    · rcases List.mem_cons.mp h with h1 | h1
      · exact Or.inl h1
      · exact Or.inr h1
    · split at h
      · exact Or.inr h
      · rcases List.mem_cons.mp h with h1 | h1
        · exact Or.inr (h1 ▸ List.mem_cons_self x xs)
        · rcases ih h1 with h2 | h2
          · exact Or.inl h2
          · exact Or.inr (List.mem_cons_of_mem x h2)

theorem ascending_btInsert (e : Entry) (l : List Entry)
    (hl : AscendingPrices l) : AscendingPrices (btInsert e l) := by
  induction l with
  | nil =>
    simp only [btInsert, AscendingPrices]
    exact List.pairwise_singleton _ e
  | cons x xs ih =>
    rw [AscendingPrices, List.pairwise_cons] at hl
    obtain ⟨hx, hxs⟩ := hl
    rw [AscendingPrices]
    simp only [btInsert]
    split
    · rename_i hlt
      refine List.Pairwise.cons ?_ (List.Pairwise.cons hx hxs)
      intro y hy
      rcases List.mem_cons.mp hy with rfl | hy
      · exact hlt
      · exact lt_trans hlt (hx y hy)
    · split
      · exact List.Pairwise.cons hx hxs
      · rename_i hnlt hne
        refine List.Pairwise.cons ?_ (ih hxs)
        intro y hy
        rcases mem_btInsert e y xs hy with rfl | hy
        · exact lt_of_le_of_ne (le_of_not_lt hnlt) fun hc => hne hc.symm
        · exact hx y hy

theorem ascending_applyBid (heap : List Entry) (e : Entry)
    (h : AscendingPrices heap) : AscendingPrices (applyBid heap e) := by
  unfold applyBid
  split
  · exact h.filter _
  · exact ascending_btInsert _ _ h

theorem applyAsk_eq_applyBid : applyAsk = applyBid := rfl

theorem ascending_foldl_applyBid (es : List Entry) :
    ∀ heap, AscendingPrices heap → AscendingPrices (es.foldl applyBid heap) := by
  induction es with
  | nil => exact fun heap h => h
  | cons e es ih => exact fun heap h => ih _ (ascending_applyBid heap e h)

/-- The side-ledger invariant for the whole book. -/
def Inv (b : Orderbook) : Prop :=
  AscendingPrices b.bids_heap ∧ AscendingPrices b.asks_heap

theorem inv_new : Inv Orderbook.new :=
  ⟨List.Pairwise.nil, List.Pairwise.nil⟩

theorem inv_applyEntry (b : Orderbook) (entry : OrderbookEntry)
    (h : Inv b) : Inv (applyEntry b entry) := by
  obtain ⟨hb, ha⟩ := h
  unfold applyEntry
  cases entry.bids with
  | none =>
    cases entry.asks with
    | none => exact ⟨hb, ha⟩
    | some asks =>
      exact ⟨hb, applyAsk_eq_applyBid ▸ ascending_foldl_applyBid asks _ ha⟩
  | some bids =>
    cases entry.asks with
    | none => exact ⟨ascending_foldl_applyBid bids _ hb, ha⟩
    | some asks =>
      exact ⟨ascending_foldl_applyBid bids _ hb,
        applyAsk_eq_applyBid ▸ ascending_foldl_applyBid asks _ ha⟩

theorem inv_applyUpdateData (d : List OrderbookEntry) :
    ∀ b, Inv b → Inv (applyUpdateData b d) := by
  induction d with
  | nil => exact fun b h => h
  | cons e es ih => exact fun b h => ih _ (inv_applyEntry b e h)

theorem inv_evaluateState (b : Orderbook) (m : OrderbookMessage)
    (h : Inv b) : Inv (evaluateState b m) := by
  unfold evaluateState evaluate handle_snapshot handle_update
  cases m.type_name with
  | none => exact h
  | some t =>
    dsimp only
    by_cases hs : t = "snapshot"
    · rw [if_pos hs]
      cases m.data with
      | none => exact ⟨List.Pairwise.nil, List.Pairwise.nil⟩
      | some d => exact inv_applyUpdateData d _ ⟨List.Pairwise.nil, List.Pairwise.nil⟩
    · by_cases hu : t = "update"
      · rw [if_neg hs, if_pos hu]
        cases m.data with
        | none => exact h
        | some d => exact inv_applyUpdateData d b h
      · rw [if_neg hs, if_neg hu]
        exact h

theorem inv_processAll (ms : List OrderbookMessage) : Inv (processAll ms) := by
  unfold processAll
  suffices h : ∀ b, Inv b → Inv (ms.foldl evaluateState b) from h Orderbook.new inv_new
  induction ms with
  | nil => exact fun b h => h
  | cons m ms ih => exact fun b h => ih _ (inv_evaluateState b m h)

theorem btInsert_idem (e : Entry) (l : List Entry) :
    btInsert e (btInsert e l) = btInsert e l := by
  induction l with
  | nil => simp [btInsert]
  | cons x xs ih =>
    by_cases h1 : e.price < x.price
    · rw [show btInsert e (x :: xs) = e :: x :: xs from by simp [btInsert, h1]]
      simp [btInsert]
    · by_cases h2 : e.price = x.price
      · rw [show btInsert e (x :: xs) = x :: xs from by simp [btInsert, h1, h2]]
        simp [btInsert, h1, h2]
      · rw [show btInsert e (x :: xs) = x :: btInsert e xs from by
          simp [btInsert, h1, h2]]
        rw [show btInsert e (x :: btInsert e xs) = x :: btInsert e (btInsert e xs)
          from by simp [btInsert, h1, h2], ih]

theorem applyEntry_no_sides (b : Orderbook) (e : OrderbookEntry)
    (hb : e.bids = none) (ha : e.asks = none) : applyEntry b e = b := by
  unfold applyEntry
  rw [hb, ha]

theorem applyUpdateData_no_sides :
    ∀ d : List OrderbookEntry, (∀ e ∈ d, e.bids = none ∧ e.asks = none) →
      ∀ b, applyUpdateData b d = b := by
  intro d
  induction d with
  | nil => exact fun _ b => rfl
  | cons e es ih =>
    intro hd b
    have h1 := hd e (List.mem_cons_self e es)
    have h2 : ∀ x ∈ es, x.bids = none ∧ x.asks = none :=
      fun x hx => hd x (List.mem_cons_of_mem e hx)
    unfold applyUpdateData
    rw [List.foldl_cons, applyEntry_no_sides b e h1.1 h1.2]
    exact ih h2 b

theorem SIGMA_eq : SIGMA = 1 / 100000000 := by
  rw [SIGMA, Rat.mkRat_eq_div]
  norm_num

theorem applyBid_remove_example : applyBid [⟨9, 2⟩, ⟨10, 5⟩] ⟨10, 0⟩ = [] := by
  have h0 : ((⟨10, 0⟩ : Entry).qty : ℚ) < SIGMA := by rw [SIGMA_eq]; norm_num
  have h9 : ¬ ((⟨9, 2⟩ : Entry).price - (⟨10, 0⟩ : Entry).price > SIGMA) := by
    rw [SIGMA_eq]; norm_num
  have h10 : ¬ ((⟨10, 5⟩ : Entry).price - (⟨10, 0⟩ : Entry).price > SIGMA) := by
    rw [SIGMA_eq]; norm_num
  unfold applyBid
  rw [if_pos h0]
  simp only [List.filter_cons, List.filter_nil, decide_eq_false h9,
    decide_eq_false h10, Bool.false_eq_true, if_false]

theorem evaluate_eq_of_update (b : Orderbook) (m : OrderbookMessage)
    (ht : m.type_name = some "update") : evaluate b m = handle_update b m := by
  unfold evaluate
  rw [ht]
  dsimp only
  rw [if_neg (by decide), if_pos rfl]

theorem evaluate_eq_of_snapshot (b : Orderbook) (m : OrderbookMessage)
    (ht : m.type_name = some "snapshot") : evaluate b m = handle_snapshot b m := by
  unfold evaluate
  rw [ht]
  dsimp only
  rw [if_pos rfl]

/-- Claim C1: the spec says an upsert `(p, q2)` with `q2 ≥ ε` on a side
already holding `(p, q1)` replaces the stored quantity, so `(10, 3)`
over `(10, 1)` yields `(10, 3)`.  The code inserts into a `BTreeSet`
whose equality is decided by price alone, and `BTreeSet::insert` does
not update an equal element: the book is left unchanged and the stored
level is still `(10, 1)`. -/
theorem update_keeps_old_qty :
    evaluate (applyUpdateData Orderbook.new [⟨none, some [⟨10, 1⟩], none⟩])
        ⟨some [⟨none, some [⟨10, 3⟩], none⟩], some "update", none⟩ =
      Except.ok (applyUpdateData Orderbook.new [⟨none, some [⟨10, 1⟩], none⟩]) ∧
    (applyUpdateData Orderbook.new [⟨none, some [⟨10, 1⟩], none⟩]).bids_heap =
      [⟨10, 1⟩] ∧
    ([⟨10, 1⟩] : List Entry) ≠ [⟨10, 3⟩] :=
  ⟨rfl, rfl, by decide⟩

/-- Claim C2: the spec says a removal pair `(p, q)` with `q < ε` removes
only the level keyed `p` and leaves every other level, in particular the
lower-priced ones, untouched.  The code removes by
`retain(|entry| entry.price - p > SIGMA)`, which also deletes every
level priced below `p`: removing `(10, 0)` from bids `{(9,2),(10,5)}`
empties the side, destroying `(9, 2)` as well. -/
theorem removal_drops_lower_levels :
    (applyUpdateData Orderbook.new [⟨none, some [⟨9, 2⟩, ⟨10, 5⟩], none⟩]).bids_heap =
      [⟨9, 2⟩, ⟨10, 5⟩] ∧
    evaluate (applyUpdateData Orderbook.new [⟨none, some [⟨9, 2⟩, ⟨10, 5⟩], none⟩])
        ⟨some [⟨none, some [⟨10, 0⟩], none⟩], some "update", none⟩ =
      Except.ok ⟨[], []⟩ := by
  refine ⟨rfl, ?_⟩
  have hb2 : applyUpdateData Orderbook.new [⟨none, some [⟨9, 2⟩, ⟨10, 5⟩], none⟩] =
      Orderbook.mk [⟨9, 2⟩, ⟨10, 5⟩] [] := rfl
  rw [hb2, evaluate_eq_of_update _ _ rfl]
  unfold handle_update
  dsimp only
  unfold applyUpdateData
  rw [List.foldl_cons, List.foldl_nil]
  unfold applyEntry
  dsimp only
  rw [List.foldl_cons, List.foldl_nil, applyBid_remove_example]

/-- Claim C3: the spec says the top-of-book read reports the highest bid
and the lowest ask, so bids `{(9,1),(10,2),(8,3)}` with asks
`{(11,1),(9,2),(12,3)}` should report bid `(10, 2)` and ask `(9, 2)`.
The code takes `bids.iter().next()` (the LOWEST bid) and
`asks.iter().next_back()` (the HIGHEST ask), and prints the bid's price
in both price slots: it reports `(8, 3)` and `(8, 3)`. -/
theorem render_is_inverted :
    render (applyUpdateData Orderbook.new
        [⟨none, some [⟨9, 1⟩, ⟨10, 2⟩, ⟨8, 3⟩], some [⟨11, 1⟩, ⟨9, 2⟩, ⟨12, 3⟩]⟩]) =
      some ⟨8, 3, 8, 3⟩ ∧
    render (applyUpdateData Orderbook.new
        [⟨none, some [⟨9, 1⟩, ⟨10, 2⟩, ⟨8, 3⟩], some [⟨11, 1⟩, ⟨9, 2⟩, ⟨12, 3⟩]⟩]) ≠
      some ⟨10, 2, 9, 2⟩ :=
  ⟨rfl, by decide⟩

/-- Claim C4 counterexample: an update record whose `data` payload is
absent does NOT complete normally — `message.data.unwrap()` panics (the
model returns `.error` carrying the unchanged state), so processing it
is not the claimed no-op. -/
theorem update_noData_panics :
    evaluate (Orderbook.mk [⟨10, 1⟩] []) ⟨none, some "update", none⟩ =
      Except.error (Orderbook.mk [⟨10, 1⟩] []) ∧
    evaluate (Orderbook.mk [⟨10, 1⟩] []) ⟨none, some "update", none⟩ ≠
      Except.ok (Orderbook.mk [⟨10, 1⟩] []) :=
  ⟨rfl, fun h => by cases h⟩

/-- Claim C4 (amended): an update record whose data payload is present
but populates neither the bid list nor the ask list of any entry leaves
both side ledgers unchanged and completes normally; an update record
whose data payload is absent fails (the unwrap panics), with the
ledgers unchanged at the point of failure. -/
theorem evaluate_update_malformed (b : Orderbook) (m : OrderbookMessage)
    (ht : m.type_name = some "update") :
    (∀ d, m.data = some d → (∀ e ∈ d, e.bids = none ∧ e.asks = none) →
      evaluate b m = Except.ok b) ∧
    (m.data = none → evaluate b m = Except.error b) := by
  constructor
  · intro d hd hall
    rw [evaluate_eq_of_update b m ht]
    unfold handle_update
    rw [hd]
    dsimp only
    rw [applyUpdateData_no_sides d hall b]
  · intro hd
    rw [evaluate_eq_of_update b m ht]
    unfold handle_update
    rw [hd]

/-- Claim C4 witness: a concrete update record with one entry whose bid
and ask lists are both absent is a no-op on a concrete book. -/
theorem evaluate_update_malformed_witness :
    (⟨some [⟨some "BTC", none, none⟩], some "update", none⟩ :
        OrderbookMessage).type_name = some "update" ∧
    evaluate (Orderbook.mk [⟨10, 1⟩] [⟨11, 2⟩])
        ⟨some [⟨some "BTC", none, none⟩], some "update", none⟩ =
      Except.ok (Orderbook.mk [⟨10, 1⟩] [⟨11, 2⟩]) :=
  ⟨rfl,
    (evaluate_update_malformed (Orderbook.mk [⟨10, 1⟩] [⟨11, 2⟩])
        ⟨some [⟨some "BTC", none, none⟩], some "update", none⟩ rfl).1
      [⟨some "BTC", none, none⟩] rfl (by decide)⟩

/-- Claim C5: `handle_snapshot` clears both ledgers and then behaves
exactly as `handle_update` on the empty book, for every prior state and
every message; in particular a snapshot with bids `{(10,1)}` over a book
holding bids `{(9,2),(10,1)}` leaves exactly `{(10,1)}`. -/
theorem snapshot_is_update_on_empty :
    (∀ (s : Orderbook) (m : OrderbookMessage),
        handle_snapshot s m = handle_update Orderbook.new m) ∧
    handle_snapshot (Orderbook.mk [⟨9, 2⟩, ⟨10, 1⟩] [])
        ⟨some [⟨none, some [⟨10, 1⟩], none⟩], some "snapshot", none⟩ =
      Except.ok (Orderbook.mk [⟨10, 1⟩] []) :=
  ⟨fun _ _ => rfl, rfl⟩

/-- Claim C6: a record whose classification is present but neither
`"snapshot"` nor `"update"` leaves the book exactly unchanged. -/
theorem evaluate_unknown_is_noop (b : Orderbook) (m : OrderbookMessage)
    (t : String) (ht : m.type_name = some t)
    (hs : t ≠ "snapshot") (hu : t ≠ "update") :
    evaluate b m = Except.ok b := by
  unfold evaluate
  rw [ht]
  dsimp only
  rw [if_neg hs, if_neg hu]

/-- Claim C6 witness: a `"heartbeat"` record on a concrete two-sided
book leaves it unchanged. -/
theorem evaluate_unknown_is_noop_witness :
    ("heartbeat" ≠ "snapshot") ∧ ("heartbeat" ≠ "update") ∧
    evaluate (Orderbook.mk [⟨10, 1⟩] [⟨11, 2⟩]) ⟨none, some "heartbeat", none⟩ =
      Except.ok (Orderbook.mk [⟨10, 1⟩] [⟨11, 2⟩]) :=
  ⟨by decide, by decide,
    evaluate_unknown_is_noop (Orderbook.mk [⟨10, 1⟩] [⟨11, 2⟩])
      ⟨none, some "heartbeat", none⟩ "heartbeat" rfl (by decide) (by decide)⟩

/-- Claim C7: after any sequence of records processed from the empty
book, no two stored levels on the same side share a price. -/
theorem processAll_prices_unique (ms : List OrderbookMessage) :
    (processAll ms).bids_heap.Pairwise (fun a c => a.price ≠ c.price) ∧
    (processAll ms).asks_heap.Pairwise (fun a c => a.price ≠ c.price) := by
  obtain ⟨hb, ha⟩ := inv_processAll ms
  exact ⟨hb.imp ne_of_lt, ha.imp ne_of_lt⟩

/-- Claim C8: applying the same upsert pair `(p, q)` with `q ≥ ε` twice
in succession yields the same book as applying it once (on either side;
here the pair is sent on both sides at once). -/
theorem applyUpdate_idem (b : Orderbook) (p q : ℚ) (h : SIGMA ≤ q) :
    applyUpdateData
        (applyUpdateData b [⟨none, some [⟨p, q⟩], some [⟨p, q⟩]⟩])
        [⟨none, some [⟨p, q⟩], some [⟨p, q⟩]⟩] =
      applyUpdateData b [⟨none, some [⟨p, q⟩], some [⟨p, q⟩]⟩] := by
  have hq : ¬ q < SIGMA := not_lt.mpr h
  simp [applyUpdateData, applyEntry, applyBid, applyAsk, hq, btInsert_idem]

/-- Claim C8 witness: the upsert `(10, 3)` applied twice to the empty
book equals applying it once. -/
theorem applyUpdate_idem_witness :
    SIGMA ≤ (3 : ℚ) ∧
    applyUpdateData
        (applyUpdateData Orderbook.new [⟨none, some [⟨10, 3⟩], some [⟨10, 3⟩]⟩])
        [⟨none, some [⟨10, 3⟩], some [⟨10, 3⟩]⟩] =
      applyUpdateData Orderbook.new [⟨none, some [⟨10, 3⟩], some [⟨10, 3⟩]⟩] :=
  ⟨by decide, applyUpdate_idem Orderbook.new 10 3 (by decide)⟩

/-- Claim C9 counterexample: a book whose ask side holds `(9, 2)` and
whose bid side is empty renders NOTHING — the populated ask side is
suppressed, contradicting the claim that the best ask is still
reported. -/
theorem render_suppresses_ask :
    (applyUpdateData Orderbook.new [⟨none, none, some [⟨9, 2⟩]⟩]).bids_heap = [] ∧
    (applyUpdateData Orderbook.new [⟨none, none, some [⟨9, 2⟩]⟩]).asks_heap =
      [⟨9, 2⟩] ∧
    render (applyUpdateData Orderbook.new [⟨none, none, some [⟨9, 2⟩]⟩]) = none :=
  ⟨rfl, rfl, rfl⟩

/-- Claim C9 (amended): whenever either side ledger is empty, the
top-of-book read reports nothing at all (a quote is emitted only when
both sides are non-empty); in particular an empty bid side suppresses a
populated ask side. -/
theorem render_none_of_empty_side (b : Orderbook)
    (h : b.bids_heap = [] ∨ b.asks_heap = []) : render b = none := by
  unfold render
  split
  · rename_i bid ask hb ha
    rcases h with h | h
    · rw [h] at hb
      simp at hb
    · rw [h] at ha
      simp at ha
  · rfl

/-- Claim C9 witness: the amended statement at a concrete asks-only
book. -/
theorem render_none_of_empty_side_witness :
    ((Orderbook.mk [] [⟨9, 2⟩]).bids_heap = [] ∨
      (Orderbook.mk [] [⟨9, 2⟩]).asks_heap = []) ∧
    render (Orderbook.mk [] [⟨9, 2⟩]) = none :=
  ⟨Or.inl rfl, render_none_of_empty_side (Orderbook.mk [] [⟨9, 2⟩]) (Or.inl rfl)⟩

/-- Claim C10: a record classified `"snapshot"` with no data payload
clears both ledgers before the unwrap panics, so the failure leaves the
book empty, not in its pre-snapshot state. -/
theorem snapshot_noData_clears_first (b : Orderbook) (m : OrderbookMessage)
    (ht : m.type_name = some "snapshot") (hd : m.data = none)
    (hb : b ≠ Orderbook.new) :
    evaluate b m = Except.error Orderbook.new ∧ Orderbook.new ≠ b := by
  refine ⟨?_, Ne.symm hb⟩
  rw [evaluate_eq_of_snapshot b m ht]
  unfold handle_snapshot handle_update
  rw [hd]
  rfl

/-- Claim C10 witness: the non-atomic failure at a concrete non-empty
book and a concrete payload-less snapshot record. -/
theorem snapshot_noData_clears_first_witness :
    (Orderbook.mk [⟨10, 1⟩] [] ≠ Orderbook.new) ∧
    evaluate (Orderbook.mk [⟨10, 1⟩] []) ⟨none, some "snapshot", none⟩ =
      Except.error Orderbook.new :=
  ⟨by decide,
    (snapshot_noData_clears_first (Orderbook.mk [⟨10, 1⟩] [])
        ⟨none, some "snapshot", none⟩ rfl rfl (by decide)).1⟩

end OrderbookSpec
